import Mathlib

/-!
Verification of the lead-gen enrichment core.

Shallow embedding of the waterfall enrichment orchestrator
(`app/ai/lead_finder.py`: `EnrichmentPipeline.enrich_lead`,
`EnrichmentPipeline.enrich_leads_batch`, `AILeadFinder` cost tracking) and of
the rate-limited retrying request executor (`app/scrapers/base.py`:
`RateLimiter.acquire`, `BaseScraper._make_request`, `ScraperStats`).

External effects (the three source adapters and the network) are modelled as
oracles: each external call site takes, as a parameter, the observable result
that call would produce (a normal return value or a raised exception), and the
embedded function is the exact data flow of the Python body around it.
-/

/-! ## Python value model

Enrichment records are Python dicts with arbitrary keys and nullable values.
`Value` models the Python values the pipeline stores and tests for truthiness;
`Dict` is an insertion-ordered association list with unique keys, as produced
by Python dict literals and mutation. -/

inductive Value where
  | none
  | bool (b : Bool)
  | num (q : ℚ)
  | str (s : String)
  | list (xs : List Value)
  | dict (d : List (String × Value))

abbrev Dict := List (String × Value)

/-- Python truthiness of a value: None, False, 0, empty string / list / dict
are falsy, everything else truthy. -/
def Value.truthy : Value → Bool
  | .none => false
  | .bool b => b
  | .num q => q != 0
  | .str s => s != ""
  | .list xs => !xs.isEmpty
  | .dict d => !d.isEmpty

/-- Truthiness of the result of `d.get(k)`: a missing key yields None, which
is falsy. -/
def truthyOpt : Option Value → Bool
  | Option.none => false
  | Option.some v => v.truthy

/-- Python `d.get(k)`: the value stored at the first (unique) occurrence of
the key. -/
def dlookup : Dict → String → Option Value
  | [], _ => Option.none
  | kv :: rest, k => if kv.1 = k then Option.some kv.2 else dlookup rest k

/-- Python `d[k] = v`: replace the value at an existing key in place, or
append the new pair at the end. -/
def dinsert : Dict → String → Value → Dict
  | [], k, v => [(k, v)]
  | kv :: rest, k, v => if kv.1 = k then (k, v) :: rest else kv :: dinsert rest k v

/-- Python `d.update(e)`: insert every pair of `e` into `d`, in order. -/
def dupdate (d e : Dict) : Dict :=
  e.foldl (fun acc kv => dinsert acc kv.1 kv.2) d

/-- Whether a Python value is a mapping.  `EnrichmentPipeline.enrich_lead`
immediately calls `.copy()` and `.get(...)` on its argument, so every
non-mapping record raises AttributeError at the top of the call. -/
def Value.isDict : Value → Bool
  | .dict _ => true
  | _ => false

/-! ## External call results

A call into an adapter either raises or returns a value; the orchestrator
only ever observes that. -/

inductive CallResult (α : Type) where
  | raises
  | returns (val : α)

/-- ScraperResult from `app/scrapers/base.py` (lines 28-37): result of one
scraping operation.  On every `success=True` result the concrete adapters
populate `data` with a field dict, but the dataclass default is None. -/
structure ScraperResult where
  success : Bool
  data : Option Dict := Option.none
  error : Option String := Option.none
  source_url : Option String := Option.none
  raw_response : Option Dict := Option.none
  duration_ms : ℕ := 0

/-- Observable result of `AILeadFinder.enrich_lead` (lead_finder.py lines
329-361): the dict of keys the pipeline reads from it. `summary` models
`result.get("summary")` and may be any value. -/
structure AIFinderResult where
  enriched_data : Dict
  alternate_emails : List Value
  alternate_companies : List Value
  summary : Value
  cost_usd : ℚ

/-- The environment of one `enrich_lead` call: what each of the three
external source calls would produce if invoked.
  - `aiArk`: `AIArkScraper().enrich_company(...)` (a list of ScraperResults);
  - `linkedin`: `LinkedInScraper().scrape_profile(url)` (an optional
    ScraperResult);
  - `aiFinder`: `self.ai_finder.enrich_lead(...)` (the finder result dict).
`raises` covers any exception escaping the call, including adapter
construction failures. -/
structure Env where
  aiArk : CallResult (List ScraperResult)
  linkedin : CallResult (Option ScraperResult)
  aiFinder : CallResult AIFinderResult

/-- The three external sources, in waterfall priority order; used to record
which sources a call actually invoked. -/
inductive Source where
  | aiArk
  | linkedin
  | aiFinder
deriving DecidableEq

/-! ## EnrichmentPipeline (lead_finder.py lines 390-531) -/

/-- The `self.stats` dict of `EnrichmentPipeline` (lines 400-407). -/
structure PipelineStats where
  total_enriched : ℕ
  ai_ark_hits : ℕ
  linkedin_hits : ℕ
  ai_finder_hits : ℕ
  failed : ℕ
  total_cost : ℚ

/-- The local state of one `enrich_lead` call while the waterfall runs:
the locals `enriched`, `source`, `cost` (lines 428-430), plus the trace of
sources invoked so far (for stating non-invocation properties). -/
structure Waterfall where
  enriched : Dict
  source : Option String
  cost : ℚ
  trace : List Source

/-- Locals as first initialized: `enriched = lead_data.copy()`,
`source = None`, `cost = 0.0`, nothing invoked yet. -/
def initWaterfall (lead_data : Dict) : Waterfall :=
  { enriched := lead_data, source := Option.none, cost := 0, trace := [] }

/-- Step 1 (lines 436-454): try AI Ark when enabled and the record has a
truthy company name or domain.  A hit requires a nonempty result list whose
first element has `success=True`; `enriched.update(results[0].data)` with
`data=None` raises TypeError inside the try block, which the except clause
swallows, so such a result is a miss.  Any raise from the call is caught and
leaves the locals unchanged. -/
def step1 (env : Env) (lead_data : Dict) (use_ai_ark : Bool) (w : Waterfall) :
    Waterfall :=
  if use_ai_ark &&
      (truthyOpt (dlookup lead_data "company_name") ||
       truthyOpt (dlookup lead_data "company_domain")) then
    let w2 := { w with trace := w.trace ++ [Source.aiArk] }
    match env.aiArk with
    | .raises => w2
    | .returns [] => w2
    | .returns (r :: _) =>
      if r.success then
        match r.data with
        | Option.some d =>
          { w2 with enriched := dupdate w2.enriched d,
                    source := Option.some "ai_ark" }
        | Option.none => w2
      else w2
  else w

/-- Step 2 (lines 457-472): try LinkedIn when no source has won yet, the
toggle is on and the record has a truthy `linkedin_url`.  The call returns an
optional result; a hit requires a present result with `success=True` and a
populated `data` (update with None raises and is caught as a miss). -/
def step2 (env : Env) (lead_data : Dict) (use_linkedin : Bool) (w : Waterfall) :
    Waterfall :=
  if w.source.isNone && use_linkedin then
    if truthyOpt (dlookup lead_data "linkedin_url") then
      let w2 := { w with trace := w.trace ++ [Source.linkedin] }
      match env.linkedin with
      | .raises => w2
      | .returns Option.none => w2
      | .returns (Option.some r) =>
        if r.success then
          match r.data with
          | Option.some d =>
            { w2 with enriched := dupdate w2.enriched d,
                      source := Option.some "linkedin" }
          | Option.none => w2
        else w2
    else w
  else w

/-- Step 3 (lines 475-494): call the AI lead finder when no source has won
yet and the toggle is on (no identity hint is required).  A hit requires a
truthy `enriched_data` dict; the winner merges that dict and writes the
`alternate_emails`, `alternate_companies` and `ai_reasoning` keys, and sets
the call cost. -/
def step3 (env : Env) (use_ai_finder : Bool) (w : Waterfall) : Waterfall :=
  if w.source.isNone && use_ai_finder then
    let w2 := { w with trace := w.trace ++ [Source.aiFinder] }
    match env.aiFinder with
    | .raises => w2
    | .returns res =>
      if !res.enriched_data.isEmpty then
        { w2 with
          enriched :=
            dinsert
              (dinsert
                (dinsert (dupdate w2.enriched res.enriched_data)
                  "alternate_emails" (Value.list res.alternate_emails))
                "alternate_companies" (Value.list res.alternate_companies))
              "ai_reasoning" res.summary,
          source := Option.some "ai_enriched",
          cost := res.cost_usd }
      else w2
  else w

/-- The whole waterfall body of `enrich_lead` (lines 428-494), before the
result tracking at lines 496-505. -/
def waterfall (env : Env) (lead_data : Dict) (u1 u2 u3 : Bool) : Waterfall :=
  step3 env u3 (step2 env lead_data u2 (step1 env lead_data u1
    (initWaterfall lead_data)))

/-- Result tracking on the outcome dict (lines 497-504): a winner writes
`enrichment_source` and `enrichment_cost`; with no winner only
`enrichment_source = None` is written. -/
def mkOutcome (w : Waterfall) : Dict :=
  match w.source with
  | Option.some src =>
    dinsert (dinsert w.enriched "enrichment_source" (Value.str src))
      "enrichment_cost" (Value.num w.cost)
  | Option.none => dinsert w.enriched "enrichment_source" Value.none

/-- The hit-counter update performed at the winning branch: each branch that
sets `source` also increments the matching hit counter (lines 450, 468, 489),
and an AI-finder win adds its cost to `total_cost` (line 490). -/
def hitStats (source : Option String) (cost : ℚ) (s : PipelineStats) :
    PipelineStats :=
  match source with
  | Option.some "ai_ark" => { s with ai_ark_hits := s.ai_ark_hits + 1 }
  | Option.some "linkedin" => { s with linkedin_hits := s.linkedin_hits + 1 }
  | Option.some "ai_enriched" =>
    { s with ai_finder_hits := s.ai_finder_hits + 1,
             total_cost := s.total_cost + cost }
  | _ => s

/-- Result tracking on the pipeline stats (lines 497-502): a winner also
increments `total_enriched`, a total miss increments `failed`. -/
def mkStats (w : Waterfall) (s : PipelineStats) : PipelineStats :=
  let s2 := hitStats w.source w.cost s
  match w.source with
  | Option.some _ => { s2 with total_enriched := s2.total_enriched + 1 }
  | Option.none => { s2 with failed := s2.failed + 1 }

/-- What one `enrich_lead` call produces: the returned outcome dict, the
updated `self.stats`, and the sources invoked. -/
structure EnrichResult where
  outcome : Dict
  stats : PipelineStats
  trace : List Source

/-- EnrichmentPipeline.enrich_lead (lead_finder.py lines 409-505) for a
mapping record, with the three external calls supplied by `env`. -/
def EnrichmentPipeline.enrich_lead (env : Env) (lead_data : Dict)
    (use_ai_ark use_linkedin use_ai_finder : Bool) (s : PipelineStats) :
    EnrichResult :=
  let w := waterfall env lead_data use_ai_ark use_linkedin use_ai_finder
  { outcome := mkOutcome w, stats := mkStats w s, trace := w.trace }

/-- EnrichmentPipeline.enrich_lead on an arbitrary Python value: a
non-mapping record raises AttributeError at `lead_data.copy()` /
`lead_data.get(...)` before anything else happens. -/
def EnrichmentPipeline.enrich_leadV (env : Env) (lead : Value)
    (use_ai_ark use_linkedin use_ai_finder : Bool) (s : PipelineStats) :
    CallResult EnrichResult :=
  match lead with
  | Value.dict d =>
    CallResult.returns
      (EnrichmentPipeline.enrich_lead env d use_ai_ark use_linkedin
        use_ai_finder s)
  | _ => CallResult.raises

/-! ## enrich_leads_batch (lead_finder.py lines 507-531)

The batch spawns one `enrich_lead(lead)` task per record (default toggles,
all three sources enabled), bounded by a semaphore, and awaits
`asyncio.gather(*tasks)`.  The semaphore bounds in-flight tasks but does not
change any task's result; `gather` without `return_exceptions=True` returns
the per-task results in task order, or propagates the first exception. -/

/-- The per-slot results of the batch tasks, in input order, threading the
shared `self.stats` through the calls.  A task that raises does so before
touching the stats. -/
def runTasksList : List (Value × Env) → PipelineStats → List (CallResult Dict)
  | [], _ => []
  | t :: rest, s =>
    match EnrichmentPipeline.enrich_leadV t.2 t.1 true true true s with
    | CallResult.raises => CallResult.raises :: runTasksList rest s
    | CallResult.returns r =>
      CallResult.returns r.outcome :: runTasksList rest r.stats

/-- Semantics of `asyncio.gather(*tasks)` with default `return_exceptions`:
all results in task order, or a raise as soon as any task raises. -/
def gather {α : Type} : List (CallResult α) → CallResult (List α)
  | [] => CallResult.returns []
  | CallResult.raises :: _ => CallResult.raises
  | CallResult.returns a :: rest =>
    match gather rest with
    | CallResult.raises => CallResult.raises
    | CallResult.returns back => CallResult.returns (a :: back)

/-- EnrichmentPipeline.enrich_leads_batch (lines 507-531).  Each record
carries its own external-call environment; `concurrency` sizes the semaphore,
which only schedules and never alters a result. -/
def EnrichmentPipeline.enrich_leads_batch (leads : List (Value × Env))
    (concurrency : ℕ) (s : PipelineStats) : CallResult (List Dict) :=
  gather (runTasksList leads s)

/-! ## Heap-level view of enrich_lead (lead_finder.py line 428)

Python dicts are heap objects passed by reference.  `enrich_lead` begins with
`enriched = lead_data.copy()` and every later mutation (`enriched.update`,
`enriched[k] = v`) targets the fresh copy; the caller's record is only read.
The heap model makes that aliasing structure explicit: a store of dict
objects addressed by allocation order, one fresh allocation for the copy, and
writes only through the fresh reference. -/

structure Heap where
  next : ℕ
  mem : ℕ → Dict

/-- Allocate a new dict object, returning the updated heap and its address. -/
def Heap.alloc (h : Heap) (d : Dict) : Heap × ℕ :=
  ({ next := h.next + 1, mem := fun i => if i = h.next then d else h.mem i },
   h.next)

/-- Overwrite the dict object at an address. -/
def Heap.write (h : Heap) (r : ℕ) (d : Dict) : Heap :=
  { h with mem := fun i => if i = r then d else h.mem i }

/-- EnrichmentPipeline.enrich_lead at the heap level: read the record at
`lead_ref`, allocate the copy (line 428), run the waterfall body whose
mutations all target the local `enriched`, and write the accumulated outcome
through the copy reference only. -/
def EnrichmentPipeline.enrich_leadRef (env : Env) (h : Heap) (lead_ref : ℕ)
    (use_ai_ark use_linkedin use_ai_finder : Bool) (s : PipelineStats) :
    Heap × ℕ × PipelineStats :=
  let lead_data := h.mem lead_ref
  let alloced := h.alloc lead_data
  let r := EnrichmentPipeline.enrich_lead env lead_data use_ai_ark
    use_linkedin use_ai_finder s
  (alloced.1.write alloced.2 r.outcome, alloced.2, r.stats)

/-! ## Scraper executor (app/scrapers/base.py) -/

/-- ScraperStats (base.py lines 40-62): per-session request counters and the
ordered error log.  Session timestamps are not modelled (no claim reads
them). -/
structure ScraperStats where
  total_requests : ℕ
  successful_requests : ℕ
  failed_requests : ℕ
  total_items_found : ℕ
  errors : List String

/-- What one attempt of the `_make_request` body observes from the network:
the request succeeds (2xx after `raise_for_status`), or raises an exception
tenacity retries (`httpx.HTTPError`, `asyncio.TimeoutError`), or raises any
other exception. -/
inductive Attempt where
  | success
  | failRetryable (msg : String)
  | failOther (msg : String)

/-- Stats effect of one attempt of the `_make_request` body (base.py lines
146-156): `total_requests` is incremented before the try block; a returning
attempt increments `successful_requests`; a raising attempt increments
`failed_requests` and appends the message to `errors` before re-raising. -/
def attemptStats (s : ScraperStats) (a : Attempt) : ScraperStats :=
  let s1 := { s with total_requests := s.total_requests + 1 }
  match a with
  | Attempt.success =>
    { s1 with successful_requests := s1.successful_requests + 1 }
  | Attempt.failRetryable m =>
    { s1 with failed_requests := s1.failed_requests + 1,
              errors := s1.errors ++ [m] }
  | Attempt.failOther m =>
    { s1 with failed_requests := s1.failed_requests + 1,
              errors := s1.errors ++ [m] }

/-- Whether the whole `_make_request` call returned a response or raised. -/
inductive ReqOutcome where
  | ok
  | raised
deriving DecidableEq

/-- The tenacity retry loop around the `_make_request` body
(`stop_after_attempt(3)`, `retry_if_exception_type((httpx.HTTPError,
asyncio.TimeoutError))`): `remaining` further attempts are allowed, `n` is
the next attempt number, `oracle n` is what attempt `n` would observe.
A retryable failure with attempts remaining re-enters the body; a
non-retryable failure propagates at once; exhausting the attempts
propagates the failure to the caller. -/
def make_requestGo (oracle : ℕ → Attempt) :
    ℕ → ℕ → ScraperStats → ScraperStats × ReqOutcome
  | 0, _, s => (s, ReqOutcome.raised)
  | remaining + 1, n, s =>
    let s1 := attemptStats s (oracle n)
    match oracle n with
    | Attempt.success => (s1, ReqOutcome.ok)
    | Attempt.failOther _ => (s1, ReqOutcome.raised)
    | Attempt.failRetryable _ => make_requestGo oracle remaining (n + 1) s1

/-- BaseScraper._make_request (base.py lines 133-156): up to 3 attempts of
the rate-limited request body, retrying only on retryable failures. -/
def BaseScraper._make_request (oracle : ℕ → Attempt) (s : ScraperStats) :
    ScraperStats × ReqOutcome :=
  make_requestGo oracle 3 1 s

/-! ## RateLimiter (base.py lines 65-81)

`acquire()` runs under an asyncio.Lock, so concurrent callers are served one
at a time in arrival order; the model is the resulting sequence of critical
sections.  Each acquisition reads the clock (`now`), sleeps out the remainder
of the interval when the previous grant is too recent, and stores a fresh
clock reading as `last_request_time`.  `eps` is the nonnegative slack of that
final reading over the ideal grant instant (scheduler jitter plus the second
`time.time()` call); the clock is taken monotone, as the spec assumes. -/

structure RateLimiter where
  requests_per_minute : ℚ
  interval : ℚ
  last_request_time : ℚ

/-- RateLimiter.__init__ (lines 68-72): interval is `60.0 /
requests_per_minute`, and `last_request_time` starts at 0. -/
def RateLimiter.init (requests_per_minute : ℚ) : RateLimiter :=
  { requests_per_minute := requests_per_minute,
    interval := 60 / requests_per_minute,
    last_request_time := 0 }

/-- The clock value stored by one `acquire()` whose critical section starts
at clock `now` and oversleeps by `eps`: when the interval has not yet
elapsed, sleep until `last + interval` (plus slack), otherwise return at
once. -/
def RateLimiter.acquireGrant (st : RateLimiter) (now eps : ℚ) : ℚ :=
  if now - st.last_request_time < st.interval then
    st.last_request_time + st.interval + eps
  else
    now + eps

/-- RateLimiter.acquire (lines 74-81): the grant instant becomes the new
`last_request_time`. -/
def RateLimiter.acquire (st : RateLimiter) (now eps : ℚ) : RateLimiter :=
  { st with last_request_time := st.acquireGrant now eps }

/-- Grant instants of a queue of acquisitions served in order, each given by
its critical-section start time and sleep slack. -/
def RateLimiter.grantTimes (st : RateLimiter) :
    List (ℚ × ℚ) → List ℚ
  | [] => []
  | c :: rest =>
    st.acquireGrant c.1 c.2 ::
      RateLimiter.grantTimes (st.acquire c.1 c.2) rest

/-- Consecutive elements are at least `interval` apart. -/
def spaced (interval : ℚ) : List ℚ → Prop
  | [] => True
  | [_] => True
  | a :: b :: rest => a + interval ≤ b ∧ spaced interval (b :: rest)

/-! ## AILeadFinder cost accounting (lead_finder.py lines 44-382) -/

/-- The cost-tracking state of one AILeadFinder instance: the configured
model identifier and the running token totals (lines 49-55). -/
structure AILeadFinder where
  model : String
  total_input_tokens : ℕ
  total_output_tokens : ℕ

/-- Python `round(x, 6)` on the exact rational value. -/
def round6 (x : ℚ) : ℚ := ((round (x * 1000000) : ℤ) : ℚ) / 1000000

/-- AILeadFinder._estimate_cost (lines 363-378): pricing tier selected by a
case-insensitive substring match on the model identifier, cost per million
tokens, rounded to 6 decimal places. -/
def AILeadFinder._estimate_cost (f : AILeadFinder)
    (input_tokens output_tokens : ℕ) : ℚ :=
  if (f.model.toLower).containsSubstr "haiku" then
    round6 (((input_tokens : ℚ) / 1000000) * 0.25 +
      ((output_tokens : ℚ) / 1000000) * 1.25)
  else
    round6 (((input_tokens : ℚ) / 1000000) * 3 +
      ((output_tokens : ℚ) / 1000000) * 15)

/-- Token accounting of one `_call_claude` call (lines 90-94): the usage of
the call is added onto the running totals. -/
def AILeadFinder.trackUsage (f : AILeadFinder)
    (input_tokens output_tokens : ℕ) : AILeadFinder :=
  { f with total_input_tokens := f.total_input_tokens + input_tokens,
           total_output_tokens := f.total_output_tokens + output_tokens }

/-- AILeadFinder.get_total_cost (lines 380-382): recompute the estimate from
the running totals. -/
def AILeadFinder.get_total_cost (f : AILeadFinder) : ℚ :=
  f._estimate_cost f.total_input_tokens f.total_output_tokens

/-! ## Dictionary lemmas -/

theorem dlookup_dinsert_self (d : Dict) (k : String) (v : Value) :
    dlookup (dinsert d k v) k = Option.some v := by
  induction d with
  | nil => simp [dinsert, dlookup]
  | cons kv rest ih =>
    by_cases h : kv.1 = k
    · simp [dinsert, dlookup, h]
    · simp [dinsert, dlookup, h, ih]

theorem dlookup_dinsert_ne (d : Dict) (k k2 : String) (v : Value)
    (h : k2 ≠ k) : dlookup (dinsert d k v) k2 = dlookup d k2 := by
  have h2 : ¬ (k = k2) := fun hh => h hh.symm
  induction d with
  | nil => simp [dinsert, dlookup, h2]
  | cons kv rest ih =>
    by_cases hk : kv.1 = k
    · subst hk
      simp [dinsert, dlookup, h2]
    · simp [dinsert, dlookup, hk, ih]

/-! ## Waterfall step lemmas -/

theorem step2_source_some (env : Env) (lead_data : Dict) (u2 : Bool)
    (w : Waterfall) (x : String) (h : w.source = Option.some x) :
    step2 env lead_data u2 w = w := by
  simp [step2, h]

theorem step3_source_some (env : Env) (u3 : Bool) (w : Waterfall)
    (x : String) (h : w.source = Option.some x) :
    step3 env u3 w = w := by
  simp [step3, h]

/-! ## Claim theorems -/

/-- C1: if the PRIMARY (AI Ark) source is attempted (toggle on and a truthy
company name or domain present) and the call returns a nonempty result list
whose first result has success=true with its data payload, then the call
invokes only the PRIMARY source (neither the NETWORK adapter nor the AI
finder appears in the trace), the outcome is the record merged with the
PRIMARY payload plus enrichment_source = "ai_ark" and enrichment_cost = 0,
and only the PRIMARY hit counter and total_enriched increment. -/
theorem ai_ark_success_short_circuits (env : Env) (d : Dict) (u2 u3 : Bool)
    (s : PipelineStats) (r : ScraperResult) (rs : List ScraperResult)
    (payload : Dict)
    (hattempt : (truthyOpt (dlookup d "company_name") ||
      truthyOpt (dlookup d "company_domain")) = true)
    (hret : env.aiArk = CallResult.returns (r :: rs))
    (hsucc : r.success = true)
    (hdata : r.data = Option.some payload) :
    (EnrichmentPipeline.enrich_lead env d true u2 u3 s).trace = [Source.aiArk]
    ∧ (EnrichmentPipeline.enrich_lead env d true u2 u3 s).outcome =
        dinsert (dinsert (dupdate d payload) "enrichment_source"
          (Value.str "ai_ark")) "enrichment_cost" (Value.num 0)
    ∧ (EnrichmentPipeline.enrich_lead env d true u2 u3 s).stats =
        { s with ai_ark_hits := s.ai_ark_hits + 1,
                 total_enriched := s.total_enriched + 1 } := by
  have h1 : step1 env d true (initWaterfall d) =
      { enriched := dupdate d payload, source := Option.some "ai_ark",
        cost := 0, trace := [Source.aiArk] } := by
    simp [step1, hattempt, hret, hsucc, hdata, initWaterfall]
  have hw : waterfall env d true u2 u3 =
      { enriched := dupdate d payload, source := Option.some "ai_ark",
        cost := 0, trace := [Source.aiArk] } := by
    unfold waterfall
    rw [h1, step2_source_some env d u2 _ "ai_ark" rfl,
      step3_source_some env u3 _ "ai_ark" rfl]
  refine ⟨?_, ?_, ?_⟩ <;>
    simp [EnrichmentPipeline.enrich_lead, hw, mkOutcome, mkStats, hitStats]

/-- Concrete objects for the witness instances. -/
def stats0 : PipelineStats :=
  { total_enriched := 0, ai_ark_hits := 0, linkedin_hits := 0,
    ai_finder_hits := 0, failed := 0, total_cost := 0 }

def payloadW : Dict := [("email", Value.str "jane@acme.com")]

def dW : Dict :=
  [("company_name", Value.str "Acme Corp"),
   ("company_domain", Value.str "acme.com")]

def rW : ScraperResult :=
  { success := true, data := Option.some payloadW }

def envW : Env :=
  { aiArk := CallResult.returns [rW],
    linkedin := CallResult.raises,
    aiFinder := CallResult.raises }

/-- Witness for C1: the spec scenario, record with company name and domain,
PRIMARY returning a success payload. -/
theorem ai_ark_success_short_circuits_concrete :
    (EnrichmentPipeline.enrich_lead envW dW true true true stats0).trace =
      [Source.aiArk]
    ∧ (EnrichmentPipeline.enrich_lead envW dW true true true stats0).outcome =
        dinsert (dinsert (dupdate dW payloadW) "enrichment_source"
          (Value.str "ai_ark")) "enrichment_cost" (Value.num 0)
    ∧ (EnrichmentPipeline.enrich_lead envW dW true true true stats0).stats =
        { stats0 with ai_ark_hits := stats0.ai_ark_hits + 1,
                      total_enriched := stats0.total_enriched + 1 } :=
  ai_ark_success_short_circuits envW dW true true stats0 rW [] payloadW
    (by decide) rfl rfl rfl

/-! ## Source and trace lemmas for the waterfall -/

/-- The only values the local `source` ever takes. -/
def sourceOK (o : Option String) : Prop :=
  o = Option.none ∨ o = Option.some "ai_ark" ∨ o = Option.some "linkedin" ∨
    o = Option.some "ai_enriched"

theorem step1_source (env : Env) (d : Dict) (u1 : Bool) (w : Waterfall) :
    (step1 env d u1 w).source = w.source ∨
      (step1 env d u1 w).source = Option.some "ai_ark" := by
  unfold step1
  split
  · cases env.aiArk with
    | raises => left; rfl
    | returns results =>
      cases results with
      | nil => left; rfl
      | cons r rs =>
        by_cases hs : r.success
        · rcases hd : r.data with _ | dd <;> simp [hs, hd]
        · simp [hs]
  · left; rfl

theorem step2_source (env : Env) (d : Dict) (u2 : Bool) (w : Waterfall) :
    (step2 env d u2 w).source = w.source ∨
      (step2 env d u2 w).source = Option.some "linkedin" := by
  unfold step2
  split
  · split
    · cases env.linkedin with
      | raises => left; rfl
      | returns o =>
        cases o with
        | none => left; rfl
        | some r =>
          by_cases hs : r.success
          · rcases hd : r.data with _ | dd <;> simp [hs, hd]
          · simp [hs]
    · left; rfl
  · left; rfl

theorem step3_source (env : Env) (u3 : Bool) (w : Waterfall) :
    (step3 env u3 w).source = w.source ∨
      (step3 env u3 w).source = Option.some "ai_enriched" := by
  unfold step3
  split
  · cases env.aiFinder with
    | raises => left; rfl
    | returns res =>
      by_cases he : res.enriched_data.isEmpty
      · simp [he]
      · simp [he]
  · left; rfl

theorem waterfall_sourceOK (env : Env) (d : Dict) (u1 u2 u3 : Bool) :
    sourceOK (waterfall env d u1 u2 u3).source := by
  unfold waterfall sourceOK
  have h0 : (initWaterfall d).source = Option.none := rfl
  rcases step3_source env u3 (step2 env d u2 (step1 env d u1 (initWaterfall d)))
    with h3 | h3
  · rw [h3]
    rcases step2_source env d u2 (step1 env d u1 (initWaterfall d)) with h2 | h2
    · rw [h2]
      rcases step1_source env d u1 (initWaterfall d) with h1 | h1
      · rw [h1, h0]; tauto
      · rw [h1]; tauto
    · rw [h2]; tauto
  · rw [h3]; tauto

theorem step3_trace_mono (env : Env) (u3 : Bool) (w : Waterfall) (a : Source)
    (h : a ∈ w.trace) : a ∈ (step3 env u3 w).trace := by
  unfold step3
  split
  · cases env.aiFinder with
    | raises => simpa using Or.inl h
    | returns res =>
      by_cases he : res.enriched_data.isEmpty
      · simp [he]; exact Or.inl h
      · simp [he]; exact Or.inl h
  · exact h

theorem step1_raises (env : Env) (d : Dict) (u1 : Bool) (w : Waterfall)
    (h : env.aiArk = CallResult.raises) :
    step1 env d u1 w =
      if u1 && (truthyOpt (dlookup d "company_name") ||
          truthyOpt (dlookup d "company_domain")) then
        { w with trace := w.trace ++ [Source.aiArk] }
      else w := by
  unfold step1
  rw [h]

theorem step2_linkedin_attempted (env : Env) (d : Dict) (w : Waterfall)
    (hsrc : w.source = Option.none)
    (hurl : truthyOpt (dlookup d "linkedin_url") = true) :
    Source.linkedin ∈ (step2 env d true w).trace := by
  unfold step2
  rw [hsrc]
  simp only [Option.isNone_none, Bool.and_self, if_true, hurl, if_pos]
  cases env.linkedin with
  | raises => simp
  | returns o =>
    cases o with
    | none => simp
    | some r =>
      by_cases hs : r.success
      · rcases hd : r.data with _ | dd <;> simp [hs, hd]
      · simp [hs]

/-- An outcome dict the orchestrator may hand back: the enrichment_source key
is present and is either None or one of the three source tags, and a winning
source also wrote a numeric enrichment_cost. -/
def WellFormedOutcome (d : Dict) : Prop :=
  dlookup d "enrichment_source" = Option.some Value.none ∨
    ∃ src, dlookup d "enrichment_source" = Option.some (Value.str src) ∧
      (src = "ai_ark" ∨ src = "linkedin" ∨ src = "ai_enriched") ∧
      ∃ c, dlookup d "enrichment_cost" = Option.some (Value.num c)

/-- C2: for every mapping record, every toggle configuration and every
behavior of the external sources (including raising calls), enrich_lead
returns normally (never raises), its outcome is a well-formed enrichment
outcome, and a PRIMARY call that raises is treated as a miss: the NETWORK
source (when enabled and eligible) is still attempted. -/
theorem enrich_lead_total_wellformed (env : Env) (d : Dict) (u1 u2 u3 : Bool)
    (s : PipelineStats) :
    EnrichmentPipeline.enrich_leadV env (Value.dict d) u1 u2 u3 s =
      CallResult.returns (EnrichmentPipeline.enrich_lead env d u1 u2 u3 s)
    ∧ WellFormedOutcome (EnrichmentPipeline.enrich_lead env d u1 u2 u3 s).outcome
    ∧ (env.aiArk = CallResult.raises → u2 = true →
        truthyOpt (dlookup d "linkedin_url") = true →
        Source.linkedin ∈ (EnrichmentPipeline.enrich_lead env d u1 u2 u3 s).trace) := by
  refine ⟨rfl, ?_, ?_⟩
  · have hOK := waterfall_sourceOK env d u1 u2 u3
    have hout : (EnrichmentPipeline.enrich_lead env d u1 u2 u3 s).outcome =
        mkOutcome (waterfall env d u1 u2 u3) := rfl
    rw [WellFormedOutcome, hout]
    rcases hOK with h | h | h | h
    · left
      rw [mkOutcome, h]
      exact dlookup_dinsert_self _ _ _
    · right
      refine ⟨"ai_ark", ?_, Or.inl rfl, (waterfall env d u1 u2 u3).cost, ?_⟩
      · rw [mkOutcome, h]
        rw [dlookup_dinsert_ne _ _ _ _ (by decide)]
        exact dlookup_dinsert_self _ _ _
      · rw [mkOutcome, h]
        exact dlookup_dinsert_self _ _ _
    · right
      refine ⟨"linkedin", ?_, Or.inr (Or.inl rfl),
        (waterfall env d u1 u2 u3).cost, ?_⟩
      · rw [mkOutcome, h]
        rw [dlookup_dinsert_ne _ _ _ _ (by decide)]
        exact dlookup_dinsert_self _ _ _
      · rw [mkOutcome, h]
        exact dlookup_dinsert_self _ _ _
    · right
      refine ⟨"ai_enriched", ?_, Or.inr (Or.inr rfl),
        (waterfall env d u1 u2 u3).cost, ?_⟩
      · rw [mkOutcome, h]
        rw [dlookup_dinsert_ne _ _ _ _ (by decide)]
        exact dlookup_dinsert_self _ _ _
      · rw [mkOutcome, h]
        exact dlookup_dinsert_self _ _ _
  · intro hra hu2 hurl
    subst hu2
    have htr : (EnrichmentPipeline.enrich_lead env d u1 true u3 s).trace =
        (waterfall env d u1 true u3).trace := rfl
    rw [htr]
    unfold waterfall
    apply step3_trace_mono
    apply step2_linkedin_attempted env d _ _ hurl
    rw [step1_raises env d u1 (initWaterfall d) hra]
    split <;> rfl

/-- Witness for C2 at a concrete record and raising PRIMARY source. -/
theorem enrich_lead_total_wellformed_concrete :
    WellFormedOutcome
      (EnrichmentPipeline.enrich_lead envW
        [("linkedin_url", Value.str "https://linkedin.com/in/jane")]
        true true true stats0).outcome
    ∧ Source.linkedin ∈
      (EnrichmentPipeline.enrich_lead
        { envW with aiArk := CallResult.raises }
        [("linkedin_url", Value.str "https://linkedin.com/in/jane")]
        true true true stats0).trace :=
  ⟨(enrich_lead_total_wellformed envW
      [("linkedin_url", Value.str "https://linkedin.com/in/jane")]
      true true true stats0).2.1,
   (enrich_lead_total_wellformed { envW with aiArk := CallResult.raises }
      [("linkedin_url", Value.str "https://linkedin.com/in/jane")]
      true true true stats0).2.2 rfl rfl (by decide)⟩

/-! ## Miss characterizations -/

/-- The AI Ark call misses: it raises, returns no results, or its first
result has success=false or no payload. -/
def aiArkMiss : CallResult (List ScraperResult) → Prop
  | CallResult.raises => True
  | CallResult.returns [] => True
  | CallResult.returns (r :: _) => r.success = false ∨ r.data = Option.none

/-- The LinkedIn call misses: it raises, returns None, or its result has
success=false or no payload. -/
def linkedinMiss : CallResult (Option ScraperResult) → Prop
  | CallResult.raises => True
  | CallResult.returns Option.none => True
  | CallResult.returns (Option.some r) =>
    r.success = false ∨ r.data = Option.none

/-- The AI finder call misses: it raises or returns an empty (falsy)
enriched_data dict. -/
def aiFinderMiss : CallResult AIFinderResult → Prop
  | CallResult.raises => True
  | CallResult.returns res => res.enriched_data = []

theorem step1_miss (env : Env) (d : Dict) (u1 : Bool) (w : Waterfall)
    (h : aiArkMiss env.aiArk) :
    (step1 env d u1 w).enriched = w.enriched ∧
    (step1 env d u1 w).source = w.source ∧
    (step1 env d u1 w).cost = w.cost := by
  unfold step1
  split
  · rcases henv : env.aiArk with _ | results
    · simp [henv]
    · cases results with
      | nil => simp [henv]
      | cons r rs =>
        rw [henv] at h
        have h2 : r.success = false ∨ r.data = Option.none := h
        rcases h2 with hs | hd
        · simp [henv, hs]
        · cases hsucc : r.success
          · simp [henv, hsucc]
          · simp [henv, hsucc, hd]
  · simp

theorem step2_miss (env : Env) (d : Dict) (u2 : Bool) (w : Waterfall)
    (h : linkedinMiss env.linkedin) :
    (step2 env d u2 w).enriched = w.enriched ∧
    (step2 env d u2 w).source = w.source ∧
    (step2 env d u2 w).cost = w.cost := by
  unfold step2
  split
  · split
    · rcases henv : env.linkedin with _ | o
      · simp [henv]
      · cases o with
        | none => simp [henv]
        | some r =>
          rw [henv] at h
          have h2 : r.success = false ∨ r.data = Option.none := h
          rcases h2 with hs | hd
          · simp [henv, hs]
          · cases hsucc : r.success
            · simp [henv, hsucc]
            · simp [henv, hsucc, hd]
    · simp
  · simp

theorem step3_miss (env : Env) (u3 : Bool) (w : Waterfall)
    (h : aiFinderMiss env.aiFinder) :
    (step3 env u3 w).enriched = w.enriched ∧
    (step3 env u3 w).source = w.source ∧
    (step3 env u3 w).cost = w.cost := by
  unfold step3
  split
  · rcases henv : env.aiFinder with _ | res
    · simp [henv]
    · rw [henv] at h
      have h2 : res.enriched_data = [] := h
      simp [henv, h2]
  · simp

theorem mkOutcome_none (w : Waterfall) (h : w.source = Option.none) :
    mkOutcome w = dinsert w.enriched "enrichment_source" Value.none := by
  unfold mkOutcome
  rw [h]

theorem mkStats_none (w : Waterfall) (s : PipelineStats)
    (h : w.source = Option.none) :
    mkStats w s = { s with failed := s.failed + 1 } := by
  unfold mkStats hitStats
  rw [h]

/-- Components of the waterfall locals when every source misses. -/
theorem waterfall_all_miss (env : Env) (d : Dict) (u1 u2 u3 : Bool)
    (h1 : aiArkMiss env.aiArk) (h2 : linkedinMiss env.linkedin)
    (h3 : aiFinderMiss env.aiFinder) :
    (waterfall env d u1 u2 u3).enriched = d ∧
    (waterfall env d u1 u2 u3).source = Option.none ∧
    (waterfall env d u1 u2 u3).cost = 0 := by
  have e1 := step1_miss env d u1 (initWaterfall d) h1
  have e2 := step2_miss env d u2 (step1 env d u1 (initWaterfall d)) h2
  have e3 := step3_miss env u3
    (step2 env d u2 (step1 env d u1 (initWaterfall d))) h3
  unfold waterfall
  refine ⟨?_, ?_, ?_⟩
  · rw [e3.1, e2.1, e1.1]; rfl
  · rw [e3.2.1, e2.2.1, e1.2.1]; rfl
  · rw [e3.2.2, e2.2.2, e1.2.2]; rfl

/-- C3 (amended): when every enabled and eligible source misses (returns
success=false, returns no payload, or raises), the outcome has
enrichment_source = None, the failed counter increments by exactly one, the
hit counters, total_enriched and total_cost are unchanged — and no
enrichment_cost key is written: the outcome's enrichment_cost entry is
whatever the input record had (absent for records without one, so a read
with default 0 yields 0). -/
theorem all_sources_miss_outcome (env : Env) (d : Dict) (u1 u2 u3 : Bool)
    (s : PipelineStats)
    (h1 : aiArkMiss env.aiArk) (h2 : linkedinMiss env.linkedin)
    (h3 : aiFinderMiss env.aiFinder) :
    dlookup (EnrichmentPipeline.enrich_lead env d u1 u2 u3 s).outcome
      "enrichment_source" = Option.some Value.none
    ∧ dlookup (EnrichmentPipeline.enrich_lead env d u1 u2 u3 s).outcome
        "enrichment_cost" = dlookup d "enrichment_cost"
    ∧ (EnrichmentPipeline.enrich_lead env d u1 u2 u3 s).stats =
        { s with failed := s.failed + 1 } := by
  have hw := waterfall_all_miss env d u1 u2 u3 h1 h2 h3
  have hout : (EnrichmentPipeline.enrich_lead env d u1 u2 u3 s).outcome =
      mkOutcome (waterfall env d u1 u2 u3) := rfl
  have hst : (EnrichmentPipeline.enrich_lead env d u1 u2 u3 s).stats =
      mkStats (waterfall env d u1 u2 u3) s := rfl
  refine ⟨?_, ?_, ?_⟩
  · rw [hout, mkOutcome_none _ hw.2.1]
    exact dlookup_dinsert_self _ _ _
  · rw [hout, mkOutcome_none _ hw.2.1, hw.1]
    exact dlookup_dinsert_ne _ _ _ _ (by decide)
  · rw [hst, mkStats_none _ _ hw.2.1]

/-- An environment in which all three source calls raise. -/
def envMiss : Env :=
  { aiArk := CallResult.raises, linkedin := CallResult.raises,
    aiFinder := CallResult.raises }

/-- Counterexample to C3 as stated: on a concrete record for which every
source misses, the returned outcome reaches the all-miss branch
(enrichment_source = None) but contains NO enrichment_cost key at all —
the claim asserts the outcome has enrichment_cost = 0, yet line 503 of
lead_finder.py only writes enrichment_source on the failure path. -/
theorem all_sources_miss_cost_key_absent :
    dlookup (EnrichmentPipeline.enrich_lead envMiss
      [("company_name", Value.str "Acme Corp")] true true true stats0).outcome
      "enrichment_source" = Option.some Value.none
    ∧ dlookup (EnrichmentPipeline.enrich_lead envMiss
        [("company_name", Value.str "Acme Corp")] true true true
        stats0).outcome "enrichment_cost" = Option.none :=
  ⟨rfl, rfl⟩

/-- Witness for C3 (amended) at a concrete record and all-raising sources. -/
theorem all_sources_miss_outcome_concrete :
    dlookup (EnrichmentPipeline.enrich_lead envMiss
      [("company_name", Value.str "Acme")] true true true stats0).outcome
      "enrichment_source" = Option.some Value.none
    ∧ dlookup (EnrichmentPipeline.enrich_lead envMiss
        [("company_name", Value.str "Acme")] true true true stats0).outcome
        "enrichment_cost" =
        dlookup [("company_name", Value.str "Acme")] "enrichment_cost"
    ∧ (EnrichmentPipeline.enrich_lead envMiss
        [("company_name", Value.str "Acme")] true true true stats0).stats =
        { stats0 with failed := stats0.failed + 1 } :=
  all_sources_miss_outcome envMiss [("company_name", Value.str "Acme")]
    true true true stats0 trivial trivial trivial

/-! ## Batch lemmas -/

theorem gather_raises_iff {α : Type} (l : List (CallResult α)) :
    gather l = CallResult.raises ↔ CallResult.raises ∈ l := by
  induction l with
  | nil => simp [gather]
  | cons a rest ih =>
    cases a with
    | raises => simp [gather]
    | returns v =>
      simp only [gather, List.mem_cons]
      rcases hr : gather rest with _ | back <;> simp only [hr]
      · constructor
        · intro _
          exact Or.inr (ih.mp hr)
        · intro _
          trivial
      · constructor
        · intro hc
          exact CallResult.noConfusion hc
        · rintro (hc | hc)
          · exact CallResult.noConfusion hc
          · exact absurd (ih.mpr hc) (by simp [hr])

theorem runTasksList_raises_iff (ts : List (Value × Env)) (s : PipelineStats) :
    CallResult.raises ∈ runTasksList ts s ↔
      ∃ p ∈ ts, p.1.isDict = false := by
  induction ts generalizing s with
  | nil => simp [runTasksList]
  | cons t rest ih =>
    rcases t with ⟨v, e⟩
    cases v <;>
      simp [runTasksList, EnrichmentPipeline.enrich_leadV, Value.isDict, ih]

/-- C4 (amended): an uncaught exception in one record's orchestration is NOT
converted into a failed-outcome record: enrich_leads_batch awaits
asyncio.gather without return_exceptions, so the batch call raises exactly
when some record's orchestration raises (which happens exactly for
non-mapping records); it returns a result list only when every record's
orchestration returns. -/
theorem enrich_leads_batch_raises_iff (leads : List (Value × Env))
    (concurrency : ℕ) (s : PipelineStats) :
    EnrichmentPipeline.enrich_leads_batch leads concurrency s =
      CallResult.raises ↔ ∃ p ∈ leads, p.1.isDict = false := by
  rw [EnrichmentPipeline.enrich_leads_batch, gather_raises_iff,
    runTasksList_raises_iff]

/-- Counterexample to C4 as stated: a concrete two-record batch whose second
record's orchestration raises (a non-mapping record fails at
`lead_data.get(...)` before any source call).  The claim says the exception
is converted into a failed-outcome record for that slot and not propagated;
in fact the whole batch call raises. -/
theorem enrich_leads_batch_propagates :
    EnrichmentPipeline.enrich_leads_batch
      [(Value.dict [("company_name", Value.str "Acme Corp")], envMiss),
       (Value.none, envMiss)] 5 stats0 = CallResult.raises := rfl

/-- Witness for C4 (amended): a concrete batch with one non-mapping record
raises. -/
theorem enrich_leads_batch_raises_concrete :
    EnrichmentPipeline.enrich_leads_batch
      [(Value.num 7, envMiss)] 3 stats0 = CallResult.raises :=
  (enrich_leads_batch_raises_iff [(Value.num 7, envMiss)] 3 stats0).mpr
    ⟨(Value.num 7, envMiss), by simp [Value.isDict]⟩

/-- The batch results on mapping records, in input order. -/
theorem gather_runTasksList_dicts (ds : List (Dict × Env))
    (s s2 : PipelineStats) :
    gather (runTasksList (ds.map fun p => (Value.dict p.1, p.2)) s) =
      CallResult.returns (ds.map fun p =>
        (EnrichmentPipeline.enrich_lead p.2 p.1 true true true s2).outcome) := by
  induction ds generalizing s with
  | nil => rfl
  | cons p rest ih =>
    have h := ih ((EnrichmentPipeline.enrich_lead p.2 p.1 true true true
      s).stats)
    simp only [List.map_cons, runTasksList,
      EnrichmentPipeline.enrich_leadV, gather, h]
    rfl

/-- C5: for every list of mapping records (each with its own external-source
environment), every concurrency bound and every starting stats state,
enrich_leads_batch returns normally with one outcome per record, the i-th
outcome being exactly the outcome of enriching the i-th record — whatever
stats state that record's orchestration observes (outcomes are independent
of the shared stats, so the completion interleaving does not affect the
result sequence). -/
theorem enrich_leads_batch_order (ds : List (Dict × Env))
    (concurrency : ℕ) (s s2 : PipelineStats) :
    EnrichmentPipeline.enrich_leads_batch
      (ds.map fun p => (Value.dict p.1, p.2)) concurrency s =
      CallResult.returns (ds.map fun p =>
        (EnrichmentPipeline.enrich_lead p.2 p.1 true true true s2).outcome) := by
  rw [EnrichmentPipeline.enrich_leads_batch]
  exact gather_runTasksList_dicts ds s s2

/-! ## Executor theorems -/

/-- C6: a `_make_request` call whose attempts 1 and 2 fail with retryable
transport errors and whose attempt 3 succeeds returns normally with exactly
3 requests recorded in total, exactly 2 failures with exactly their 2
messages appended to the error log, and exactly 1 success; and in general
every attempt of the request body, success or failure, increments
total_requests by one. -/
theorem make_request_retry_scenario (oracle : ℕ → Attempt)
    (s : ScraperStats) (m1 m2 : String)
    (h1 : oracle 1 = Attempt.failRetryable m1)
    (h2 : oracle 2 = Attempt.failRetryable m2)
    (h3 : oracle 3 = Attempt.success) :
    BaseScraper._make_request oracle s =
      ({ s with total_requests := s.total_requests + 3,
                successful_requests := s.successful_requests + 1,
                failed_requests := s.failed_requests + 2,
                errors := s.errors ++ [m1, m2] }, ReqOutcome.ok)
    ∧ ∀ (a : Attempt) (s2 : ScraperStats),
        (attemptStats s2 a).total_requests = s2.total_requests + 1 := by
  constructor
  · unfold BaseScraper._make_request
    simp [make_requestGo, attemptStats, h1, h2, h3]
  · intro a s2
    cases a <;> rfl

/-- Concrete attempt oracle: retryable failures on attempts 1 and 2, success
from attempt 3 on. -/
def oracleW : ℕ → Attempt := fun n =>
  match n with
  | 1 => Attempt.failRetryable "timeout on attempt 1"
  | 2 => Attempt.failRetryable "timeout on attempt 2"
  | _ => Attempt.success

def scraperStats0 : ScraperStats :=
  { total_requests := 0, successful_requests := 0, failed_requests := 0,
    total_items_found := 0, errors := [] }

/-- Witness for C6 at the concrete oracle and fresh session stats. -/
theorem make_request_retry_scenario_concrete :
    BaseScraper._make_request oracleW scraperStats0 =
      ({ scraperStats0 with
          total_requests := scraperStats0.total_requests + 3,
          successful_requests := scraperStats0.successful_requests + 1,
          failed_requests := scraperStats0.failed_requests + 2,
          errors := scraperStats0.errors ++
            ["timeout on attempt 1", "timeout on attempt 2"] }, ReqOutcome.ok)
    ∧ ∀ (a : Attempt) (s2 : ScraperStats),
        (attemptStats s2 a).total_requests = s2.total_requests + 1 :=
  make_request_retry_scenario oracleW scraperStats0
    "timeout on attempt 1" "timeout on attempt 2" rfl rfl rfl

/-- The session-stats invariant of the scraper base class. -/
def statsInvariant (s : ScraperStats) : Prop :=
  s.total_requests = s.successful_requests + s.failed_requests ∧
    s.errors.length = s.failed_requests

theorem attemptStats_invariant (s : ScraperStats) (a : Attempt)
    (h : statsInvariant s) : statsInvariant (attemptStats s a) := by
  obtain ⟨ht, he⟩ := h
  cases a <;> simp [attemptStats, statsInvariant, ht, he] <;> omega

theorem make_requestGo_invariant (oracle : ℕ → Attempt) (fuel n : ℕ)
    (s : ScraperStats) (h : statsInvariant s) :
    statsInvariant (make_requestGo oracle fuel n s).1 := by
  induction fuel generalizing n s with
  | zero => exact h
  | succ fuel ih =>
    unfold make_requestGo
    rcases ha : oracle n with _ | m | m
    · simpa [ha] using attemptStats_invariant s _ (by exact h)
    · simpa [ha] using ih (n + 1) _ (attemptStats_invariant s _ h)
    · simpa [ha] using attemptStats_invariant s _ (by exact h)

/-- C9: each completed attempt of the `_make_request` body — whether it
returns a response or raises — preserves the stats invariant
total_requests = successful_requests + failed_requests and
length(errors) = failed_requests; consequently the whole retrying
`_make_request` call preserves it too, for every attempt oracle. -/
theorem make_request_preserves_invariant (a : Attempt)
    (oracle : ℕ → Attempt) (s : ScraperStats) (h : statsInvariant s) :
    statsInvariant (attemptStats s a) ∧
      statsInvariant (BaseScraper._make_request oracle s).1 :=
  ⟨attemptStats_invariant s a h, make_requestGo_invariant oracle 3 1 s h⟩

/-- Witness for C9 at a concrete attempt, oracle and stats state. -/
theorem make_request_preserves_invariant_concrete :
    statsInvariant (attemptStats scraperStats0
      (Attempt.failRetryable "connection reset")) ∧
      statsInvariant (BaseScraper._make_request oracleW scraperStats0).1 :=
  make_request_preserves_invariant (Attempt.failRetryable "connection reset")
    oracleW scraperStats0 ⟨rfl, rfl⟩

/-! ## RateLimiter theorems -/

theorem acquireGrant_lower (st : RateLimiter) (now eps : ℚ)
    (heps : 0 ≤ eps) :
    st.last_request_time + st.interval ≤ st.acquireGrant now eps := by
  unfold RateLimiter.acquireGrant
  by_cases hc : now - st.last_request_time < st.interval
  · rw [if_pos hc]
    linarith
  · rw [if_neg hc]
    push_neg at hc
    linarith

theorem grantTimes_spaced_aux (calls : List (ℚ × ℚ)) :
    ∀ (st : RateLimiter), (∀ c ∈ calls, 0 ≤ c.2) →
      spaced st.interval (RateLimiter.grantTimes st calls) ∧
        ∀ g ∈ (RateLimiter.grantTimes st calls).head?,
          st.last_request_time + st.interval ≤ g := by
  induction calls with
  | nil =>
    intro st _
    exact ⟨trivial, by simp [RateLimiter.grantTimes]⟩
  | cons c rest ih =>
    intro st h
    have hc0 : 0 ≤ c.2 := h c (List.mem_cons_self c rest)
    have hrest : ∀ x ∈ rest, 0 ≤ x.2 := fun x hx =>
      h x (List.mem_cons_of_mem c hx)
    have IH := ih (st.acquire c.1 c.2) hrest
    constructor
    · rcases hg : RateLimiter.grantTimes (st.acquire c.1 c.2) rest
        with _ | ⟨g2, gs⟩
      · simp [RateLimiter.grantTimes, hg, spaced]
      · have hsp := IH.1
        rw [hg] at hsp
        have hhead := IH.2 g2 (by rw [hg]; rfl)
        have hint : (st.acquire c.1 c.2).interval = st.interval := rfl
        have hlast : (st.acquire c.1 c.2).last_request_time =
          st.acquireGrant c.1 c.2 := rfl
        rw [hint] at hsp hhead
        rw [hlast] at hhead
        simp only [RateLimiter.grantTimes, hg, spaced]
        exact ⟨hhead, hsp⟩
    · intro g hgmem
      simp only [RateLimiter.grantTimes, List.head?_cons,
        Option.mem_def, Option.some.injEq] at hgmem
      rw [← hgmem]
      exact acquireGrant_lower st c.1 c.2 hc0

/-- C7: for a rate limiter configured with R requests per minute, the grant
instants of any queue of acquisitions (the asyncio.Lock serves concurrent
callers one critical section at a time, in arrival order) are pairwise at
least 60/R seconds apart, for every monotone clock behavior and nonnegative
sleep slack. -/
theorem rate_limiter_spacing (R : ℚ) (calls : List (ℚ × ℚ))
    (hR : 0 < R) (heps : ∀ c ∈ calls, 0 ≤ c.2) :
    spaced (60 / R) (RateLimiter.grantTimes (RateLimiter.init R) calls) := by
  have h := (grantTimes_spaced_aux calls (RateLimiter.init R) heps).1
  simpa [RateLimiter.init] using h

/-- Witness for C7: at 2 requests per minute (interval 30s), three
acquisitions arriving at 100s, 101s and 200s are granted at 100s, 130s and
200s — consecutive grants at least 30s apart. -/
theorem rate_limiter_spacing_concrete :
    spaced (60 / 2)
      (RateLimiter.grantTimes (RateLimiter.init 2)
        [((100 : ℚ), (0 : ℚ)), (101, 0), (200, 0)]) :=
  rate_limiter_spacing 2 [((100 : ℚ), (0 : ℚ)), (101, 0), (200, 0)]
    (by norm_num)
    (by
      intro c hc
      simp only [List.mem_cons, List.not_mem_nil, or_false] at hc
      rcases hc with rfl | rfl | rfl <;> norm_num)

/-! ## Cost accounting theorems -/

theorem _estimate_cost_trackUsage (f : AILeadFinder) (i o a b : ℕ) :
    (f.trackUsage i o)._estimate_cost a b = f._estimate_cost a b := rfl

/-- C8: for every sequence of cost-tracked calls made by one AILeadFinder
instance, get_total_cost equals the per-call estimate applied to the sums of
all accumulated input and output tokens (it recomputes from the running
totals rather than summing per-call rounded costs); in particular after any
two calls it equals the estimate applied to the summed token counts of both
calls. -/
theorem get_total_cost_recomputes (f : AILeadFinder)
    (calls : List (ℕ × ℕ)) :
    AILeadFinder.get_total_cost
        (calls.foldl (fun g c => g.trackUsage c.1 c.2) f) =
      f._estimate_cost (f.total_input_tokens + (calls.map Prod.fst).sum)
        (f.total_output_tokens + (calls.map Prod.snd).sum)
    ∧ ∀ i1 o1 i2 o2 : ℕ,
        ((f.trackUsage i1 o1).trackUsage i2 o2).get_total_cost =
          f._estimate_cost (f.total_input_tokens + i1 + i2)
            (f.total_output_tokens + o1 + o2) := by
  constructor
  · induction calls generalizing f with
    | nil => simp [AILeadFinder.get_total_cost]
    | cons c rest ih =>
      have h := ih (f.trackUsage c.1 c.2)
      simp only [List.foldl_cons] at h ⊢
      rw [h, _estimate_cost_trackUsage]
      simp only [AILeadFinder.trackUsage, List.map_cons, List.sum_cons]
      congr 1 <;> omega
  · intro i1 o1 i2 o2
    rfl

/-! ## Frame theorem for enrich_lead (heap level) -/

/-- C10: enrich_lead never mutates the caller's input mapping: all merged
payloads and the enrichment_source / enrichment_cost fields are written only
through the fresh copy allocated at line 428, so the dict object the input
reference points to is identical before and after the call, and the copy
holds exactly the computed outcome. -/
theorem enrich_lead_preserves_input (env : Env) (h : Heap) (i : ℕ)
    (u1 u2 u3 : Bool) (s : PipelineStats) (hi : i < h.next) :
    ((EnrichmentPipeline.enrich_leadRef env h i u1 u2 u3 s).1).mem i = h.mem i
    ∧ ((EnrichmentPipeline.enrich_leadRef env h i u1 u2 u3 s).1).mem
        (EnrichmentPipeline.enrich_leadRef env h i u1 u2 u3 s).2.1 =
      (EnrichmentPipeline.enrich_lead env (h.mem i) u1 u2 u3 s).outcome := by
  have hne : i ≠ h.next := Nat.ne_of_lt hi
  constructor
  · simp [EnrichmentPipeline.enrich_leadRef, Heap.alloc, Heap.write, hne]
  · simp [EnrichmentPipeline.enrich_leadRef, Heap.alloc, Heap.write]

/-- A one-object heap holding a concrete record at address 0. -/
def heapW : Heap :=
  { next := 1, mem := fun _ => [("company_name", Value.str "Acme Corp")] }

/-- Witness for C10 at the concrete heap, record and environment. -/
theorem enrich_lead_preserves_input_concrete :
    ((EnrichmentPipeline.enrich_leadRef envMiss heapW 0 true true true
        stats0).1).mem 0 = heapW.mem 0
    ∧ ((EnrichmentPipeline.enrich_leadRef envMiss heapW 0 true true true
          stats0).1).mem
        (EnrichmentPipeline.enrich_leadRef envMiss heapW 0 true true true
          stats0).2.1 =
      (EnrichmentPipeline.enrich_lead envMiss (heapW.mem 0) true true true
        stats0).outcome :=
  enrich_lead_preserves_input envMiss heapW 0 true true true stats0
    (by decide)
